import Mathlib

/-!
Verification of the CAAM DSA hardware-offload pipeline
(`core/drivers/crypto/caam/acipher/caam_dsa.c`) and of the DCP helper
functions (`core/drivers/dcp/imx_dcp_utils.c`), via a shallow embedding.

Byte buffers are `List Nat` (each element one byte), machine integers are
`Nat` with explicit reductions modulo powers of two where the C code
masks, and fallible steps are driven by explicit oracles describing the
outcomes of the external collaborators (allocator, bignum library, job
ring, prime generator).
-/

namespace CaamDsa

/-! ## Big-endian byte codec

The bignum library collaborators (`crypto_bignum_num_bytes`,
`crypto_bignum_bn2bin`, `crypto_bignum_bin2bn`) are modelled on `Nat`
values: `natBytesBE` is the minimal big-endian byte string of a value
(what `bn2bin` emits), `bytesBEtoNat` decodes a big-endian byte string
(what `bin2bn` computes). -/

/-- Decode a big-endian byte string to its value (`crypto_bignum_bin2bn`). -/
def bytesBEtoNat (bs : List Nat) : Nat :=
  bs.foldl (fun acc b => acc * 256 + b) 0

/-- Fuel-driven minimal big-endian encoding; `fuel ≥ v` makes it total. -/
def natBytesBEAux : Nat → Nat → List Nat
  | _, 0 => []
  | 0, _ + 1 => []
  | fuel + 1, v + 1 => natBytesBEAux fuel ((v + 1) / 256) ++ [(v + 1) % 256]

/-- Minimal big-endian byte string of a value (`crypto_bignum_bn2bin`
source bytes; empty for zero). -/
def natBytesBE (v : Nat) : List Nat := natBytesBEAux v v

/-- Byte length of a bignum (`crypto_bignum_num_bytes`). -/
def numBytes (v : Nat) : Nat := (natBytesBE v).length

theorem natBytesBEAux_zero (fuel : Nat) : natBytesBEAux fuel 0 = [] := by
  cases fuel <;> rfl

theorem natBytesBEAux_congr :
    ∀ f1 f2 v, v ≤ f1 → v ≤ f2 → natBytesBEAux f1 v = natBytesBEAux f2 v := by
  intro f1
  induction f1 with
  | zero =>
    intro f2 v h1 _
    have hv : v = 0 := Nat.le_zero.mp h1
    subst hv
    rw [natBytesBEAux_zero, natBytesBEAux_zero]
  | succ f1 ih =>
    intro f2 v h1 h2
    cases v with
    | zero => rw [natBytesBEAux_zero, natBytesBEAux_zero]
    | succ v =>
      cases f2 with
      | zero => omega
      | succ f2 =>
        show natBytesBEAux f1 ((v + 1) / 256) ++ [(v + 1) % 256] =
          natBytesBEAux f2 ((v + 1) / 256) ++ [(v + 1) % 256]
        have hd : (v + 1) / 256 < v + 1 := Nat.div_lt_self (Nat.succ_pos v) (by norm_num)
        rw [ih f2 ((v + 1) / 256) (by omega) (by omega)]

theorem natBytesBE_succ (v : Nat) :
    natBytesBE (v + 1) = natBytesBE ((v + 1) / 256) ++ [(v + 1) % 256] := by
  have hd : (v + 1) / 256 < v + 1 := Nat.div_lt_self (Nat.succ_pos v) (by norm_num)
  show natBytesBEAux (v + 1) (v + 1) = natBytesBE ((v + 1) / 256) ++ [(v + 1) % 256]
  show natBytesBEAux v ((v + 1) / 256) ++ [(v + 1) % 256] =
    natBytesBE ((v + 1) / 256) ++ [(v + 1) % 256]
  rw [natBytesBEAux_congr v ((v + 1) / 256) ((v + 1) / 256) (by omega) (le_refl _)]
  rfl

theorem bytesBEtoNat_acc (bs : List Nat) :
    ∀ a, bs.foldl (fun acc b => acc * 256 + b) a =
      a * 256 ^ bs.length + bytesBEtoNat bs := by
  induction bs with
  | nil => intro a; simp [bytesBEtoNat]
  | cons b rest ih =>
    intro a
    show rest.foldl (fun acc b => acc * 256 + b) (a * 256 + b) = _
    rw [ih (a * 256 + b)]
    show _ = a * 256 ^ (rest.length + 1) + (b :: rest).foldl (fun acc b => acc * 256 + b) 0
    show _ = a * 256 ^ (rest.length + 1) + rest.foldl (fun acc b => acc * 256 + b) (0 * 256 + b)
    rw [ih (0 * 256 + b)]
    ring

theorem bytesBEtoNat_cons (b : Nat) (rest : List Nat) :
    bytesBEtoNat (b :: rest) = b * 256 ^ rest.length + bytesBEtoNat rest := by
  show rest.foldl (fun acc b => acc * 256 + b) (0 * 256 + b) = _
  rw [bytesBEtoNat_acc rest (0 * 256 + b)]
  ring

theorem bytesBEtoNat_append (xs ys : List Nat) :
    bytesBEtoNat (xs ++ ys) = bytesBEtoNat xs * 256 ^ ys.length + bytesBEtoNat ys := by
  show (xs ++ ys).foldl (fun acc b => acc * 256 + b) 0 = _
  rw [List.foldl_append, bytesBEtoNat_acc ys]
  rfl

theorem bytesBEtoNat_replicate_zero (k : Nat) :
    bytesBEtoNat (List.replicate k 0) = 0 := by
  induction k with
  | zero => rfl
  | succ k ih =>
    rw [List.replicate_succ, bytesBEtoNat_cons, ih]
    simp

theorem bytesBEtoNat_zero_pad (k : Nat) (bs : List Nat) :
    bytesBEtoNat (List.replicate k 0 ++ bs) = bytesBEtoNat bs := by
  rw [bytesBEtoNat_append, bytesBEtoNat_replicate_zero]
  simp

/-- Round trip: decoding the minimal big-endian encoding gives the value back. -/
theorem bytesBEtoNat_natBytesBE (v : Nat) : bytesBEtoNat (natBytesBE v) = v := by
  induction v using Nat.strong_induction_on with
  | _ v ih =>
    cases v with
    | zero => rfl
    | succ v =>
      rw [natBytesBE_succ, bytesBEtoNat_append]
      have hd : (v + 1) / 256 < v + 1 := Nat.div_lt_self (Nat.succ_pos v) (by norm_num)
      rw [ih ((v + 1) / 256) hd]
      show (v + 1) / 256 * 256 ^ 1 + bytesBEtoNat [(v + 1) % 256] = v + 1
      have : bytesBEtoNat [(v + 1) % 256] = (v + 1) % 256 := by
        show 0 * 256 + (v + 1) % 256 = _
        ring
      rw [this, pow_one]
      omega

theorem bytesBEtoNat_lt (bs : List Nat) (h : ∀ b ∈ bs, b < 256) :
    bytesBEtoNat bs < 256 ^ bs.length := by
  induction bs with
  | nil => simp [bytesBEtoNat]
  | cons b rest ih =>
    rw [bytesBEtoNat_cons]
    have hb : b < 256 := h b (List.mem_cons_self b rest)
    have hr : bytesBEtoNat rest < 256 ^ rest.length :=
      ih fun x hx => h x (List.mem_cons_of_mem b hx)
    calc b * 256 ^ rest.length + bytesBEtoNat rest
        < b * 256 ^ rest.length + 256 ^ rest.length := by omega
      _ = (b + 1) * 256 ^ rest.length := by ring
      _ ≤ 256 * 256 ^ rest.length := Nat.mul_le_mul_right _ (by omega)
      _ = 256 ^ (rest.length + 1) := by ring

/-! ## Status codes

`TEE_Result` values are the GlobalPlatform 32-bit codes used by the
driver; `caam_status` is the driver-internal status enumeration. -/

def TEE_SUCCESS : Nat := 0
def TEE_ERROR_GENERIC : Nat := 0xFFFF0000
def TEE_ERROR_BAD_PARAMETERS : Nat := 0xFFFF0006
def TEE_ERROR_OUT_OF_MEMORY : Nat := 0xFFFF000C
def TEE_ERROR_SIGNATURE_INVALID : Nat := 0xFFFF3072

/-- The `enum caam_status` values the DSA driver uses. -/
inductive CaamStatus
  | NO_ERROR
  | FAILURE
  | OUT_MEMORY
  | BAD_PARAM
  | JOB_STATUS
deriving DecidableEq, Repr

/-- Modelled from the spec: the job-ring status mapper
(`job_status_to_tee_result`, defined in the utils-status collaborator,
not in the sources at hand) maps a hardware completion status to a
generic device failure — `OperationFailure(status_code)` in the spec's
taxonomy — and in particular never yields the verify-specific
`TEE_ERROR_SIGNATURE_INVALID`. -/
def job_status_to_tee_result (_status : Nat) : Nat :=
  TEE_ERROR_GENERIC

/-! ## Fixed-width key-material buffers

`caam_calloc_buf n` yields a zero-initialized buffer of `n` bytes, and
`crypto_bignum_bn2bin(v, buf.data + off)` overwrites `numBytes v` bytes
of it starting at offset `off`.  The driver always uses
`off = width - numBytes v`, producing a right-justified big-endian
encoding with leading zero padding. -/

/-- Write `src` into `buf` starting at byte offset `off`
(the effect of `crypto_bignum_bn2bin` into `buf.data + off`). -/
def bufWrite (buf : List Nat) (off : Nat) (src : List Nat) : List Nat :=
  buf.take off ++ src ++ buf.drop (off + src.length)

/-- The driver's per-field conversion: `caam_calloc_buf width` followed by
`crypto_bignum_bn2bin(v, data + width - numBytes v)`. -/
def bn2bin_field (v width : Nat) : List Nat :=
  bufWrite (List.replicate width 0) (width - numBytes v) (natBytesBE v)

/-- A device write of `content` into a buffer of `len` bytes: the buffer
keeps its length, the device-provided bytes fill it from the start. -/
def deviceWrite (content : List Nat) (len : Nat) : List Nat :=
  (content ++ List.replicate len 0).take len

theorem bn2bin_field_eq_pad (v width : Nat) (h : numBytes v ≤ width) :
    bn2bin_field v width = List.replicate (width - numBytes v) 0 ++ natBytesBE v := by
  show List.take (width - numBytes v) (List.replicate width 0) ++ natBytesBE v ++
      List.drop (width - numBytes v + (natBytesBE v).length) (List.replicate width 0) = _
  have hlen : (natBytesBE v).length = numBytes v := rfl
  rw [hlen, List.take_replicate, List.drop_replicate, Nat.sub_add_cancel h]
  simp [Nat.min_eq_left (Nat.sub_le width (numBytes v))]

theorem bn2bin_field_length (v width : Nat) (h : numBytes v ≤ width) :
    (bn2bin_field v width).length = width := by
  rw [bn2bin_field_eq_pad v width h]
  have hlen : (natBytesBE v).length = numBytes v := rfl
  simp [hlen]
  omega

theorem bn2bin_field_decode (v width : Nat) (h : numBytes v ≤ width) :
    bytesBEtoNat (bn2bin_field v width) = v := by
  rw [bn2bin_field_eq_pad v width h, bytesBEtoNat_zero_pad, bytesBEtoNat_natBytesBE]

/-! ## Descriptor builder

A descriptor is an ordered sequence of 32-bit words.  The builder
helpers (`caam_desc_init/add_word/add_ptr/get_len/update_hdr`, from the
descriptor-helper collaborator) are modelled from the spec: `add_word`
appends one word, `add_ptr` appends a physical address (two words on a
64-bit CAAM, one word otherwise), `get_len` is the current word count
and `update_hdr` rewrites the first word in place.  The header word is
self-describing: it carries the descriptor length, recovered by
`descHdrLen`. -/

def caam_desc_init : List Nat := []

def caam_desc_add_word (d : List Nat) (w : Nat) : List Nat := d ++ [w % 2 ^ 32]

/-- Words appended for one pointer: high/low halves on 64-bit CAAM. -/
def ptrWords (caam64 : Bool) (p : Nat) : List Nat :=
  if caam64 then [p / 2 ^ 32 % 2 ^ 32, p % 2 ^ 32] else [p % 2 ^ 32]

def caam_desc_add_ptr (caam64 : Bool) (d : List Nat) (p : Nat) : List Nat :=
  d ++ ptrWords caam64 p

def caam_desc_get_len (d : List Nat) : Nat := d.length

def caam_desc_update_hdr (d : List Nat) (w : Nat) : List Nat := w % 2 ^ 32 :: d.tail

/-- Modelled from the spec: header word with a length field (low bits)
and a start-index field; the exact bit layout is hardware-defined. -/
def DESC_HEADER_IDX (len idx : Nat) : Nat :=
  0xB0800000 + idx % 128 * 65536 + len % 128

/-- Header word used while assembling, before the length is known. -/
def DESC_HEADER (len : Nat) : Nat := DESC_HEADER_IDX len 0

/-- Length field encoded in a header word. -/
def descHdrLen (w : Nat) : Nat := w % 128

/-- Modelled from the spec: size-flags field encodings of the key-generation
protocol data block (exact bit layout hardware-defined). -/
def PDB_DL_KEY_L_SIZE (l : Nat) : Nat := l % 4096 * 65536
def PDB_DL_KEY_N_SIZE (n : Nat) : Nat := n % 4096

/-- Modelled from the spec: size-flag field encodings of the sign/verify
protocol data blocks (exact bit layout hardware-defined). -/
def PDB_DSA_SIGN_L (l : Nat) : Nat := l % 4096 * 65536
def PDB_DSA_SIGN_N (n : Nat) : Nat := n % 4096
def PDB_DSA_VERIF_L (l : Nat) : Nat := l % 4096 * 65536
def PDB_DSA_VERIF_N (n : Nat) : Nat := n % 4096

/-- Modelled from the spec: scatter/gather flag bits of the protocol data
blocks (opaque, distinct bits above the size fields). -/
def PDB_SGT_PKSIGN_MSG : Nat := 2 ^ 27
def PDB_SGT_PKSIGN_SIGN_C : Nat := 2 ^ 26
def PDB_SGT_PKSIGN_SIGN_D : Nat := 2 ^ 25
def PDB_SGT_PKVERIF_MSG : Nat := 2 ^ 27
def PDB_SGT_PKVERIF_SIGN_C : Nat := 2 ^ 26
def PDB_SGT_PKVERIF_SIGN_D : Nat := 2 ^ 25

/-- Modelled from the spec: opaque opcode words identifying the operation
and the discrete-log family (exact encodings hardware-defined). -/
def PK_KEYPAIR_GEN_DL : Nat := 0x80140002
def DSA_SIGN_DL : Nat := 0x80440002
def DSA_VERIFY_DL : Nat := 0x80450002

/-- Append phase of the `do_gen_keypair` descriptor build: the words
added between `caam_desc_init` and the header patch, in source order. -/
def dsa_gen_body (caam64 : Bool)
    (l_bytes n_bytes pa_p pa_q pa_g pa_x pa_y : Nat) : List Nat :=
  let d := caam_desc_init
  let d := caam_desc_add_word d (DESC_HEADER 0)
  let d := caam_desc_add_word d
    (PDB_DL_KEY_L_SIZE l_bytes ||| PDB_DL_KEY_N_SIZE n_bytes)
  let d := caam_desc_add_ptr caam64 d pa_p
  let d := caam_desc_add_ptr caam64 d pa_q
  let d := caam_desc_add_ptr caam64 d pa_g
  let d := caam_desc_add_ptr caam64 d pa_x
  let d := caam_desc_add_ptr caam64 d pa_y
  caam_desc_add_word d PK_KEYPAIR_GEN_DL

/-- Descriptor built by `do_gen_keypair` (two-phase: append all words,
then patch the header with the final length). -/
def dsa_gen_desc (caam64 : Bool)
    (l_bytes n_bytes pa_p pa_q pa_g pa_x pa_y : Nat) : List Nat :=
  let d := dsa_gen_body caam64 l_bytes n_bytes pa_p pa_q pa_g pa_x pa_y
  let desclen := caam_desc_get_len d
  caam_desc_update_hdr d (DESC_HEADER_IDX desclen (desclen - 1))

/-- Append phase of the `do_sign` descriptor build. -/
def dsa_sign_body (caam64 : Bool)
    (l_bytes n_bytes pdb_sgt_flags pa_p pa_q pa_g pa_x pa_msg pa_sc pa_sd
     msg_len : Nat) : List Nat :=
  let d := caam_desc_init
  let d := caam_desc_add_word d (DESC_HEADER 0)
  let d := caam_desc_add_word d
    (PDB_DSA_SIGN_N n_bytes ||| PDB_DSA_SIGN_L l_bytes ||| pdb_sgt_flags)
  let d := caam_desc_add_ptr caam64 d pa_p
  let d := caam_desc_add_ptr caam64 d pa_q
  let d := caam_desc_add_ptr caam64 d pa_g
  let d := caam_desc_add_ptr caam64 d pa_x
  let d := caam_desc_add_ptr caam64 d pa_msg
  let d := caam_desc_add_ptr caam64 d pa_sc
  let d := caam_desc_add_ptr caam64 d pa_sd
  let d := caam_desc_add_word d msg_len
  caam_desc_add_word d DSA_SIGN_DL

/-- Descriptor built by `do_sign`. -/
def dsa_sign_desc (caam64 : Bool)
    (l_bytes n_bytes pdb_sgt_flags pa_p pa_q pa_g pa_x pa_msg pa_sc pa_sd
     msg_len : Nat) : List Nat :=
  let d := dsa_sign_body caam64 l_bytes n_bytes pdb_sgt_flags pa_p pa_q pa_g
    pa_x pa_msg pa_sc pa_sd msg_len
  let desclen := caam_desc_get_len d
  caam_desc_update_hdr d (DESC_HEADER_IDX desclen (desclen - 1))

/-- Append phase of the `do_verify` descriptor build. -/
def dsa_verify_body (caam64 : Bool)
    (l_bytes n_bytes pdb_sgt_flags pa_p pa_q pa_g pa_y pa_msg pa_sc pa_sd
     pa_tmp msg_len : Nat) : List Nat :=
  let d := caam_desc_init
  let d := caam_desc_add_word d (DESC_HEADER 0)
  let d := caam_desc_add_word d
    (PDB_DSA_VERIF_N n_bytes ||| PDB_DSA_VERIF_L l_bytes ||| pdb_sgt_flags)
  let d := caam_desc_add_ptr caam64 d pa_p
  let d := caam_desc_add_ptr caam64 d pa_q
  let d := caam_desc_add_ptr caam64 d pa_g
  let d := caam_desc_add_ptr caam64 d pa_y
  let d := caam_desc_add_ptr caam64 d pa_msg
  let d := caam_desc_add_ptr caam64 d pa_sc
  let d := caam_desc_add_ptr caam64 d pa_sd
  let d := caam_desc_add_ptr caam64 d pa_tmp
  let d := caam_desc_add_word d msg_len
  caam_desc_add_word d DSA_VERIFY_DL

/-- Descriptor built by `do_verify`. -/
def dsa_verify_desc (caam64 : Bool)
    (l_bytes n_bytes pdb_sgt_flags pa_p pa_q pa_g pa_y pa_msg pa_sc pa_sd
     pa_tmp msg_len : Nat) : List Nat :=
  let d := dsa_verify_body caam64 l_bytes n_bytes pdb_sgt_flags pa_p pa_q
    pa_g pa_y pa_msg pa_sc pa_sd pa_tmp msg_len
  let desclen := caam_desc_get_len d
  caam_desc_update_hdr d (DESC_HEADER_IDX desclen (desclen - 1))

/-- The header patch is length-correct for any non-empty descriptor of
fewer than 128 words. -/
theorem hdr_patch_len (d : List Nat) (hne : d ≠ []) (hlt : d.length < 128) :
    descHdrLen ((caam_desc_update_hdr d (DESC_HEADER_IDX (caam_desc_get_len d)
      (caam_desc_get_len d - 1))).headD 0) =
    (caam_desc_update_hdr d (DESC_HEADER_IDX (caam_desc_get_len d)
      (caam_desc_get_len d - 1))).length := by
  have hpos : 0 < d.length := List.length_pos.mpr hne
  have htail : d.tail.length = d.length - 1 := List.length_tail d
  show (DESC_HEADER_IDX d.length (d.length - 1) % 2 ^ 32) % 128 =
    d.tail.length + 1
  rw [htail]
  show (0xB0800000 + (d.length - 1) % 128 * 65536 + d.length % 128) %
    2 ^ 32 % 128 = d.length - 1 + 1
  generalize d.length = L at *
  omega

theorem dsa_gen_body_length (caam64 : Bool)
    (l n pa_p pa_q pa_g pa_x pa_y : Nat) :
    (dsa_gen_body caam64 l n pa_p pa_q pa_g pa_x pa_y).length =
      if caam64 then 13 else 8 := by
  cases caam64 <;> rfl

theorem dsa_sign_body_length (caam64 : Bool)
    (l n sgt pa_p pa_q pa_g pa_x pa_msg pa_sc pa_sd mlen : Nat) :
    (dsa_sign_body caam64 l n sgt pa_p pa_q pa_g pa_x pa_msg pa_sc pa_sd
      mlen).length = if caam64 then 18 else 11 := by
  cases caam64 <;> rfl

theorem dsa_verify_body_length (caam64 : Bool)
    (l n sgt pa_p pa_q pa_g pa_y pa_msg pa_sc pa_sd pa_tmp mlen : Nat) :
    (dsa_verify_body caam64 l n sgt pa_p pa_q pa_g pa_y pa_msg pa_sc pa_sd
      pa_tmp mlen).length = if caam64 then 20 else 12 := by
  cases caam64 <;> rfl

/-- C5: for all three operations and both pointer widths, after the
two-phase build (append all words, then patch the header) the length
encoded in the header word equals the actual total number of words of
the descriptor, the header word included. -/
theorem dsa_desc_header_length_invariant (caam64 : Bool)
    (l n sgt pa_p pa_q pa_g pa_x pa_y pa_msg pa_sc pa_sd pa_tmp mlen : Nat) :
    descHdrLen ((dsa_gen_desc caam64 l n pa_p pa_q pa_g pa_x pa_y).headD 0) =
      (dsa_gen_desc caam64 l n pa_p pa_q pa_g pa_x pa_y).length ∧
    descHdrLen ((dsa_sign_desc caam64 l n sgt pa_p pa_q pa_g pa_x pa_msg
        pa_sc pa_sd mlen).headD 0) =
      (dsa_sign_desc caam64 l n sgt pa_p pa_q pa_g pa_x pa_msg
        pa_sc pa_sd mlen).length ∧
    descHdrLen ((dsa_verify_desc caam64 l n sgt pa_p pa_q pa_g pa_y pa_msg
        pa_sc pa_sd pa_tmp mlen).headD 0) =
      (dsa_verify_desc caam64 l n sgt pa_p pa_q pa_g pa_y pa_msg
        pa_sc pa_sd pa_tmp mlen).length := by
  refine ⟨?_, ?_, ?_⟩
  · exact hdr_patch_len _
      (List.ne_nil_of_length_pos (by rw [dsa_gen_body_length]; cases caam64 <;> simp))
      (by rw [dsa_gen_body_length]; cases caam64 <;> simp)
  · exact hdr_patch_len _
      (List.ne_nil_of_length_pos (by rw [dsa_sign_body_length]; cases caam64 <;> simp))
      (by rw [dsa_sign_body_length]; cases caam64 <;> simp)
  · exact hdr_patch_len _
      (List.ne_nil_of_length_pos (by rw [dsa_verify_body_length]; cases caam64 <;> simp))
      (by rw [dsa_verify_body_length]; cases caam64 <;> simp)

/-- C6: each operation appends its descriptor fields in exactly the
spec's order — Generate: size-flags, p, q, g, x, y, opcode; Sign:
size+SG-flags, p, q, g, x, msg, sig1, sig2, msg-len, opcode; Verify:
size+SG-flags, p, q, g, y, msg, sig1, sig2, scratch, msg-len, opcode —
each after the (patched) header word. -/
theorem dsa_desc_field_order (caam64 : Bool)
    (l n sgt pa_p pa_q pa_g pa_x pa_y pa_msg pa_sc pa_sd pa_tmp mlen : Nat) :
    dsa_gen_desc caam64 l n pa_p pa_q pa_g pa_x pa_y =
      DESC_HEADER_IDX (if caam64 then 13 else 8)
          ((if caam64 then 13 else 8) - 1) % 2 ^ 32 ::
        (PDB_DL_KEY_L_SIZE l ||| PDB_DL_KEY_N_SIZE n) % 2 ^ 32 ::
        (ptrWords caam64 pa_p ++ ptrWords caam64 pa_q ++ ptrWords caam64 pa_g ++
         ptrWords caam64 pa_x ++ ptrWords caam64 pa_y ++
         [PK_KEYPAIR_GEN_DL % 2 ^ 32]) ∧
    dsa_sign_desc caam64 l n sgt pa_p pa_q pa_g pa_x pa_msg pa_sc pa_sd mlen =
      DESC_HEADER_IDX (if caam64 then 18 else 11)
          ((if caam64 then 18 else 11) - 1) % 2 ^ 32 ::
        (PDB_DSA_SIGN_N n ||| PDB_DSA_SIGN_L l ||| sgt) % 2 ^ 32 ::
        (ptrWords caam64 pa_p ++ ptrWords caam64 pa_q ++ ptrWords caam64 pa_g ++
         ptrWords caam64 pa_x ++ ptrWords caam64 pa_msg ++
         ptrWords caam64 pa_sc ++ ptrWords caam64 pa_sd ++
         [mlen % 2 ^ 32, DSA_SIGN_DL % 2 ^ 32]) ∧
    dsa_verify_desc caam64 l n sgt pa_p pa_q pa_g pa_y pa_msg pa_sc pa_sd
        pa_tmp mlen =
      DESC_HEADER_IDX (if caam64 then 20 else 12)
          ((if caam64 then 20 else 12) - 1) % 2 ^ 32 ::
        (PDB_DSA_VERIF_N n ||| PDB_DSA_VERIF_L l ||| sgt) % 2 ^ 32 ::
        (ptrWords caam64 pa_p ++ ptrWords caam64 pa_q ++ ptrWords caam64 pa_g ++
         ptrWords caam64 pa_y ++ ptrWords caam64 pa_msg ++
         ptrWords caam64 pa_sc ++ ptrWords caam64 pa_sd ++
         ptrWords caam64 pa_tmp ++
         [mlen % 2 ^ 32, DSA_VERIFY_DL % 2 ^ 32]) := by
  refine ⟨?_, ?_, ?_⟩ <;> cases caam64 <;> rfl

/-! ## Key material

`struct dsa_keypair` / `struct dsa_public_key` hold bignums, modelled as
`Nat` values; `struct caam_dsa_keypair` holds five `struct caambuf`
buffers, each either unallocated (`none`, the zero-initialized `{}`
state whose `data` is NULL) or an allocated byte list. -/

/-- `struct dsa_keypair` (bignums as values). -/
structure DsaKeypairBN where
  g : Nat
  p : Nat
  q : Nat
  x : Nat
  y : Nat
deriving DecidableEq, Repr

/-- `struct dsa_public_key` (bignums as values). -/
structure DsaPublicKeyBN where
  g : Nat
  p : Nat
  q : Nat
  y : Nat
deriving DecidableEq, Repr

/-- `struct caam_dsa_keypair`: five local buffers, `none` when not
allocated. -/
structure CaamDsaKeypair where
  g : Option (List Nat)
  p : Option (List Nat)
  q : Option (List Nat)
  x : Option (List Nat)
  y : Option (List Nat)
deriving DecidableEq, Repr

/-- The zero-initialized `struct caam_dsa_keypair caam_dsa_key = {}`. -/
def emptyKeypair : CaamDsaKeypair := ⟨none, none, none, none, none⟩

/-! ## Resource events

To state the cleanup discipline, every model records an event trace:
one `alloc` event per successful allocation and one `free` event per
release of an allocated object.  The free functions of the driver
(`caam_free_desc`, `caam_free_buf`, `caam_dmaobj_free`) are no-ops on
never-allocated (NULL) objects and null their argument, so a free event
is recorded exactly when the freed object was allocated. -/

/-- The allocatable resources of one orchestrator invocation. -/
inductive Res
  | rdesc
  | rg
  | rp
  | rq
  | rx
  | ry
  | rmsg
  | rsc
  | rsd
  | rtmp
deriving DecidableEq, Repr

/-- Allocation / release events. -/
inductive Ev
  | alloc (r : Res)
  | free (r : Res)
deriving DecidableEq, Repr

/-- Free events emitted for five optional buffers in the order of
`do_keypair_free`: g, p, q, x, y (freeing only what is allocated). -/
def feFlags (g p q x y : Bool) : List Ev :=
  (if g then [Ev.free Res.rg] else []) ++
  (if p then [Ev.free Res.rp] else []) ++
  (if q then [Ev.free Res.rq] else []) ++
  (if x then [Ev.free Res.rx] else []) ++
  (if y then [Ev.free Res.ry] else [])

/-- Free events of `do_keypair_free` on a local keypair. -/
def do_keypair_free (k : CaamDsaKeypair) : List Ev :=
  feFlags k.g.isSome k.p.isSome k.q.isSome k.x.isSome k.y.isSome

/-! ## Domain-parameter resolution (`get_keypair_domain_params`)

Allocates the q (n bytes), g (l bytes) and p (l bytes) local buffers,
then: if all three caller parameters have non-zero byte length, encodes
them right-justified into the buffers; otherwise invokes the hardware
prime/generator search (`caam_prime_dsa_gen`) to fill all three buffers
and copies the generated values back into the caller's key. -/

/-- Outcomes of the external collaborators during one
`get_keypair_domain_params` call. -/
structure DomOracle where
  alloc_q : Bool
  alloc_g : Bool
  alloc_p : Bool
  gen_ok : Bool
  gen_q : List Nat
  gen_g : List Nat
  gen_p : List Nat

/-- Result of `get_keypair_domain_params`: TEE result code, the local
keypair, the (possibly updated) caller key, whether the generator ran,
and the allocation events. -/
structure DomResult where
  ret : Nat
  outkey : CaamDsaKeypair
  key : DsaKeypairBN
  invoked : Bool
  events : List Ev

def get_keypair_domain_params (key : DsaKeypairBN) (l_bytes n_bytes : Nat)
    (o : DomOracle) (outkey : CaamDsaKeypair) : DomResult :=
  if ¬o.alloc_q then
    ⟨TEE_ERROR_OUT_OF_MEMORY, outkey, key, false, []⟩
  else if ¬o.alloc_g then
    ⟨TEE_ERROR_OUT_OF_MEMORY,
      { outkey with q := some (List.replicate n_bytes 0) }, key, false,
      [Ev.alloc Res.rq]⟩
  else if ¬o.alloc_p then
    ⟨TEE_ERROR_OUT_OF_MEMORY,
      { outkey with
          q := some (List.replicate n_bytes 0),
          g := some (List.replicate l_bytes 0) }, key, false,
      [Ev.alloc Res.rq, Ev.alloc Res.rg]⟩
  else
    -- All three buffers are allocated; generate when some parameter is
    -- absent, encode the caller's values otherwise (the q/g/p buffer
    -- contents below are per branch of that test, as in the source).
    let gen_needed : Prop :=
      numBytes key.q = 0 ∨ numBytes key.g = 0 ∨ numBytes key.p = 0
    ⟨if gen_needed ∧ ¬o.gen_ok = true then TEE_ERROR_GENERIC else TEE_SUCCESS,
     { outkey with
        q := some (if gen_needed then
            (if o.gen_ok then deviceWrite o.gen_q n_bytes
             else List.replicate n_bytes 0)
          else bn2bin_field key.q n_bytes),
        g := some (if gen_needed then
            (if o.gen_ok then deviceWrite o.gen_g l_bytes
             else List.replicate l_bytes 0)
          else bn2bin_field key.g l_bytes),
        p := some (if gen_needed then
            (if o.gen_ok then deviceWrite o.gen_p l_bytes
             else List.replicate l_bytes 0)
          else bn2bin_field key.p l_bytes) },
     if gen_needed ∧ o.gen_ok = true then
       { key with
          q := bytesBEtoNat (deviceWrite o.gen_q n_bytes),
          g := bytesBEtoNat (deviceWrite o.gen_g l_bytes),
          p := bytesBEtoNat (deviceWrite o.gen_p l_bytes) }
     else key,
     decide gen_needed,
     [Ev.alloc Res.rq, Ev.alloc Res.rg, Ev.alloc Res.rp]⟩

/-- C2: with the three local buffers successfully allocated, if all of
p, q, g have non-zero byte length then all three are encoded from the
caller's values and the generator is never invoked (and the caller's
key is untouched); if at least one has zero byte length, the generator
is invoked to produce all three together, and the generated values are
written back into the caller's key. -/
theorem dsa_domain_param_policy (key : DsaKeypairBN) (l n : Nat)
    (o : DomOracle) (outk : CaamDsaKeypair)
    (hq : o.alloc_q = true) (hg : o.alloc_g = true) (hp : o.alloc_p = true) :
    (numBytes key.p ≠ 0 → numBytes key.q ≠ 0 → numBytes key.g ≠ 0 →
      (get_keypair_domain_params key l n o outk).invoked = false ∧
      (get_keypair_domain_params key l n o outk).ret = TEE_SUCCESS ∧
      (get_keypair_domain_params key l n o outk).outkey.q =
        some (bn2bin_field key.q n) ∧
      (get_keypair_domain_params key l n o outk).outkey.g =
        some (bn2bin_field key.g l) ∧
      (get_keypair_domain_params key l n o outk).outkey.p =
        some (bn2bin_field key.p l) ∧
      (get_keypair_domain_params key l n o outk).key = key) ∧
    ((numBytes key.p = 0 ∨ numBytes key.q = 0 ∨ numBytes key.g = 0) →
      o.gen_ok = true →
      (get_keypair_domain_params key l n o outk).invoked = true ∧
      (get_keypair_domain_params key l n o outk).ret = TEE_SUCCESS ∧
      (get_keypair_domain_params key l n o outk).outkey.q =
        some (deviceWrite o.gen_q n) ∧
      (get_keypair_domain_params key l n o outk).outkey.g =
        some (deviceWrite o.gen_g l) ∧
      (get_keypair_domain_params key l n o outk).outkey.p =
        some (deviceWrite o.gen_p l) ∧
      (get_keypair_domain_params key l n o outk).key.q =
        bytesBEtoNat (deviceWrite o.gen_q n) ∧
      (get_keypair_domain_params key l n o outk).key.g =
        bytesBEtoNat (deviceWrite o.gen_g l) ∧
      (get_keypair_domain_params key l n o outk).key.p =
        bytesBEtoNat (deviceWrite o.gen_p l) ∧
      (get_keypair_domain_params key l n o outk).key.x = key.x ∧
      (get_keypair_domain_params key l n o outk).key.y = key.y) := by
  constructor
  · intro hnp hnq hng
    have hcond : ¬(numBytes key.q = 0 ∨ numBytes key.g = 0 ∨ numBytes key.p = 0) := by
      tauto
    simp [get_keypair_domain_params, hq, hg, hp, hcond]
  · intro hcond hgen
    have hcond' : numBytes key.q = 0 ∨ numBytes key.g = 0 ∨ numBytes key.p = 0 := by
      tauto
    simp [get_keypair_domain_params, hq, hg, hp, hcond', hgen]

/-- Witness for C2 at concrete inputs: a fully specified key
(p = 0x0107, q = 5, g = 3) takes the encode branch, and a key with a
missing generator takes the generate branch, writing the generated
values (q = 0x0203, g = 0x01, p = 0x02) back. -/
theorem dsa_domain_param_policy_witness :
    ((get_keypair_domain_params ⟨3, 263, 5, 0, 0⟩ 2 1
        ⟨true, true, true, true, [], [], []⟩ emptyKeypair).invoked = false ∧
      (get_keypair_domain_params ⟨3, 263, 5, 0, 0⟩ 2 1
        ⟨true, true, true, true, [], [], []⟩ emptyKeypair).outkey.p =
        some [1, 7]) ∧
    ((get_keypair_domain_params ⟨0, 2, 5, 0, 0⟩ 2 2
        ⟨true, true, true, true, [2, 3], [1], [2]⟩ emptyKeypair).invoked = true ∧
      (get_keypair_domain_params ⟨0, 2, 5, 0, 0⟩ 2 2
        ⟨true, true, true, true, [2, 3], [1], [2]⟩ emptyKeypair).key.q = 515) := by
  have h1 := (dsa_domain_param_policy ⟨3, 263, 5, 0, 0⟩ 2 1
    ⟨true, true, true, true, [], [], []⟩ emptyKeypair rfl rfl rfl).1
    (by decide) (by decide) (by decide)
  have h2 := (dsa_domain_param_policy ⟨0, 2, 5, 0, 0⟩ 2 2
    ⟨true, true, true, true, [2, 3], [1], [2]⟩ emptyKeypair rfl rfl rfl).2
    (by decide) rfl
  refine ⟨⟨h1.1, ?_⟩, ⟨h2.1, ?_⟩⟩
  · rw [h1.2.2.2.2.1]
    decide
  · rw [h2.2.2.2.2.2.1]
    decide

/-- C8: `get_keypair_domain_params` returns `TEE_ERROR_OUT_OF_MEMORY`
only when one of its three buffer allocations fails; when the buffers
are allocated, generation is required and the hardware prime/generator
search fails, it returns the distinct `TEE_ERROR_GENERIC` code (the
spec's `GenerationFailure`), never `TEE_ERROR_OUT_OF_MEMORY`. -/
theorem dsa_domain_param_failure_codes (key : DsaKeypairBN) (l n : Nat)
    (o : DomOracle) (outk : CaamDsaKeypair) :
    ((get_keypair_domain_params key l n o outk).ret = TEE_ERROR_OUT_OF_MEMORY →
      o.alloc_q = false ∨ o.alloc_g = false ∨ o.alloc_p = false) ∧
    (o.alloc_q = true → o.alloc_g = true → o.alloc_p = true →
      (numBytes key.q = 0 ∨ numBytes key.g = 0 ∨ numBytes key.p = 0) →
      o.gen_ok = false →
      (get_keypair_domain_params key l n o outk).ret = TEE_ERROR_GENERIC ∧
      (get_keypair_domain_params key l n o outk).ret ≠
        TEE_ERROR_OUT_OF_MEMORY) := by
  constructor
  · intro hret
    by_contra hall
    push_neg at hall
    obtain ⟨h1, h2, h3⟩ := hall
    rw [Bool.ne_false_iff] at h1 h2 h3
    by_cases hcond : numBytes key.q = 0 ∨ numBytes key.g = 0 ∨ numBytes key.p = 0
    · by_cases hgen : o.gen_ok = true
      · simp [get_keypair_domain_params, h1, h2, h3, hcond, hgen,
          TEE_SUCCESS, TEE_ERROR_OUT_OF_MEMORY] at hret
      · simp only [Bool.not_eq_true] at hgen
        simp [get_keypair_domain_params, h1, h2, h3, hcond, hgen,
          TEE_ERROR_GENERIC, TEE_ERROR_OUT_OF_MEMORY] at hret
    · simp [get_keypair_domain_params, h1, h2, h3, hcond,
        TEE_SUCCESS, TEE_ERROR_OUT_OF_MEMORY] at hret
  · intro h1 h2 h3 hcond hgen
    simp [get_keypair_domain_params, h1, h2, h3, hcond, hgen,
      TEE_ERROR_GENERIC, TEE_ERROR_OUT_OF_MEMORY]

/-- Witness for C8 at concrete inputs: a failed q allocation yields
out-of-memory, and a failed generation on a partially specified key
yields the generic generation-failure code. -/
theorem dsa_domain_param_failure_codes_witness :
    ((get_keypair_domain_params ⟨1, 1, 1, 0, 0⟩ 2 1
        ⟨false, true, true, false, [], [], []⟩ emptyKeypair).ret =
          TEE_ERROR_OUT_OF_MEMORY →
      (false = false ∨ true = false ∨ true = false)) ∧
    ((get_keypair_domain_params ⟨0, 2, 5, 0, 0⟩ 2 1
        ⟨true, true, true, false, [], [], []⟩ emptyKeypair).ret =
      TEE_ERROR_GENERIC) := by
  constructor
  · exact (dsa_domain_param_failure_codes ⟨1, 1, 1, 0, 0⟩ 2 1
      ⟨false, true, true, false, [], [], []⟩ emptyKeypair).1
  · exact ((dsa_domain_param_failure_codes ⟨0, 2, 5, 0, 0⟩ 2 1
      ⟨true, true, true, false, [], [], []⟩ emptyKeypair).2
      rfl rfl rfl (by decide) rfl).1

/-! ## Key conversion (`do_keypriv_conv`, `do_keypub_conv`)

Each converts a TEE-format key into local fixed-width buffers:
generator g and prime p at `l_bytes`, subprime q at `n_bytes`, plus the
private scalar x at `n_bytes` (private) or the public scalar y at
`l_bytes` (public), each right-justified with leading zero padding. -/

/-- Allocation outcomes for the four `caam_calloc_buf` calls of a key
conversion, in source order (g, p, q, then x or y). -/
structure ConvOracle where
  alloc_g : Bool
  alloc_p : Bool
  alloc_q : Bool
  alloc_s : Bool

/-- Result of a key conversion: driver status, the local keypair, and
the allocation events. -/
structure ConvResult where
  status : CaamStatus
  outkey : CaamDsaKeypair
  events : List Ev

def do_keypriv_conv (inkey : DsaKeypairBN) (l_bytes n_bytes : Nat)
    (o : ConvOracle) : ConvResult :=
  if ¬o.alloc_g then
    ⟨CaamStatus.OUT_MEMORY, emptyKeypair, []⟩
  else
    let k1 := { emptyKeypair with g := some (bn2bin_field inkey.g l_bytes) }
    if ¬o.alloc_p then
      ⟨CaamStatus.OUT_MEMORY, k1, [Ev.alloc Res.rg]⟩
    else
      let k2 := { k1 with p := some (bn2bin_field inkey.p l_bytes) }
      if ¬o.alloc_q then
        ⟨CaamStatus.OUT_MEMORY, k2, [Ev.alloc Res.rg, Ev.alloc Res.rp]⟩
      else
        let k3 := { k2 with q := some (bn2bin_field inkey.q n_bytes) }
        if ¬o.alloc_s then
          ⟨CaamStatus.OUT_MEMORY, k3,
            [Ev.alloc Res.rg, Ev.alloc Res.rp, Ev.alloc Res.rq]⟩
        else
          let k4 := { k3 with x := some (bn2bin_field inkey.x n_bytes) }
          ⟨CaamStatus.NO_ERROR, k4,
            [Ev.alloc Res.rg, Ev.alloc Res.rp, Ev.alloc Res.rq,
             Ev.alloc Res.rx]⟩

def do_keypub_conv (inkey : DsaPublicKeyBN) (l_bytes n_bytes : Nat)
    (o : ConvOracle) : ConvResult :=
  if ¬o.alloc_g then
    ⟨CaamStatus.OUT_MEMORY, emptyKeypair, []⟩
  else
    let k1 := { emptyKeypair with g := some (bn2bin_field inkey.g l_bytes) }
    if ¬o.alloc_p then
      ⟨CaamStatus.OUT_MEMORY, k1, [Ev.alloc Res.rg]⟩
    else
      let k2 := { k1 with p := some (bn2bin_field inkey.p l_bytes) }
      if ¬o.alloc_q then
        ⟨CaamStatus.OUT_MEMORY, k2, [Ev.alloc Res.rg, Ev.alloc Res.rp]⟩
      else
        let k3 := { k2 with q := some (bn2bin_field inkey.q n_bytes) }
        if ¬o.alloc_s then
          ⟨CaamStatus.OUT_MEMORY, k3,
            [Ev.alloc Res.rg, Ev.alloc Res.rp, Ev.alloc Res.rq]⟩
        else
          let k4 := { k3 with y := some (bn2bin_field inkey.y l_bytes) }
          ⟨CaamStatus.NO_ERROR, k4,
            [Ev.alloc Res.rg, Ev.alloc Res.rp, Ev.alloc Res.rq,
             Ev.alloc Res.ry]⟩

/-- C3: the key-material encoding used by `do_keypriv_conv` and
`do_keypub_conv` writes a scalar of byte length at most the target
width right-justified into a zero-initialized buffer of exactly that
width (leading bytes zero), and decoding the buffer as a big-endian
integer reproduces the scalar; the conversions apply exactly this
encoding to every field (g, p at width l; q, x at width n; y at
width l). -/
theorem dsa_key_encoding_roundtrip (v W : Nat) (h : numBytes v ≤ W) :
    (bn2bin_field v W =
      List.replicate (W - numBytes v) 0 ++ natBytesBE v) ∧
    (bn2bin_field v W).length = W ∧
    bytesBEtoNat (bn2bin_field v W) = v ∧
    (∀ inkey l n,
      (do_keypriv_conv inkey l n ⟨true, true, true, true⟩).outkey =
        ⟨some (bn2bin_field inkey.g l), some (bn2bin_field inkey.p l),
         some (bn2bin_field inkey.q n), some (bn2bin_field inkey.x n),
         none⟩) ∧
    (∀ inkey l n,
      (do_keypub_conv inkey l n ⟨true, true, true, true⟩).outkey =
        ⟨some (bn2bin_field inkey.g l), some (bn2bin_field inkey.p l),
         some (bn2bin_field inkey.q n), none,
         some (bn2bin_field inkey.y l)⟩) := by
  refine ⟨bn2bin_field_eq_pad v W h, bn2bin_field_length v W h,
    bn2bin_field_decode v W h, ?_, ?_⟩
  · intro inkey l n
    rfl
  · intro inkey l n
    rfl

/-- Witness for C3 at a concrete input: the scalar 0x0107 encoded into
width 4 is [0, 0, 1, 7] and decodes back to 0x0107. -/
theorem dsa_key_encoding_roundtrip_witness :
    numBytes 263 ≤ 4 ∧ bn2bin_field 263 4 = [0, 0, 1, 7] ∧
      bytesBEtoNat (bn2bin_field 263 4) = 263 := by
  have h := dsa_key_encoding_roundtrip 263 4 (by decide)
  refine ⟨by decide, ?_, h.2.2.1⟩
  rw [h.1]
  decide

/-! ## Operation orchestrators

Each orchestrator is modelled as a single-exit pipeline, mirroring the
source's `goto exit_*` discipline: allocation failures return through
the shared cleanup, and once every resource is acquired a single final
result is produced whose fields depend on the enqueue outcome while the
cleanup trace is the same on every remaining path.  The external
`caamdmaobj` helpers (`caam_dmaobj_init_input/init_output/derive/
copy_to_orig/free`) are modelled from the spec: they wrap or allocate a
DMA buffer, to be released by the orchestrator's cleanup. -/

/-- `ROUNDUP(v, size)` of the utility headers (modelled from the spec's
mathematical round-up-to-multiple; `size > 0`). -/
def ROUNDUP (v size : Nat) : Nat := (v + size - 1) / size * size

theorem ROUNDUP_ge (v size : Nat) (h : 0 < size) : v ≤ ROUNDUP v size := by
  show v ≤ (v + size - 1) / size * size
  have hd := Nat.div_add_mod (v + size - 1) size
  have hm : (v + size - 1) % size < size := Nat.mod_lt _ h
  have hc : size * ((v + size - 1) / size) = (v + size - 1) / size * size :=
    Nat.mul_comm _ _
  omega

/-- Physical addresses of the operation's buffers, as resolved by the
memory/address-translation collaborator. -/
structure Addrs where
  pa_p : Nat
  pa_q : Nat
  pa_g : Nat
  pa_x : Nat
  pa_y : Nat
  pa_msg : Nat
  pa_sc : Nat
  pa_sd : Nat
  pa_tmp : Nat

/-- Outcomes of the external collaborators during one `do_gen_keypair`
call. -/
structure GenOracle where
  alloc_desc : Bool
  alloc_x : Bool
  alloc_y : Bool
  dom : DomOracle
  dev_x : List Nat
  dev_y : List Nat
  enq : CaamStatus
  jobstatus : Nat
  bin2bn_x_ok : Bool
  bin2bn_x_err : Nat
  bin2bn_y_ok : Bool
  bin2bn_y_err : Nat

/-- Result of `do_gen_keypair`: TEE result, the caller's key after the
call, the descriptor built (on the paths that build one), and the
resource events. -/
structure GenResult where
  ret : Nat
  key : DsaKeypairBN
  desc : List Nat
  events : List Ev

def do_gen_keypair (key : DsaKeypairBN) (l_bits n_bits : Nat)
    (caam64 : Bool) (a : Addrs) (o : GenOracle) : GenResult :=
  let l_bytes := l_bits / 8
  let n_bytes := n_bits / 8
  if ¬o.alloc_desc then
    ⟨TEE_ERROR_OUT_OF_MEMORY, key, [], []⟩
  else if ¬o.alloc_x then
    ⟨TEE_ERROR_OUT_OF_MEMORY, key, [],
      [Ev.alloc Res.rdesc, Ev.free Res.rdesc]⟩
  else if ¬o.alloc_y then
    ⟨TEE_ERROR_OUT_OF_MEMORY, key, [],
      [Ev.alloc Res.rdesc, Ev.alloc Res.rx, Ev.free Res.rdesc,
       Ev.free Res.rx]⟩
  else
    let ck : CaamDsaKeypair := { emptyKeypair with
      x := some (List.replicate n_bytes 0),
      y := some (List.replicate l_bytes 0) }
    let dom := get_keypair_domain_params key l_bytes n_bytes o.dom ck
    let events := [Ev.alloc Res.rdesc, Ev.alloc Res.rx, Ev.alloc Res.ry] ++
      dom.events ++ [Ev.free Res.rdesc] ++ do_keypair_free dom.outkey
    let desc := dsa_gen_desc caam64 l_bytes n_bytes a.pa_p a.pa_q a.pa_g
      a.pa_x a.pa_y
    ⟨if dom.ret ≠ TEE_SUCCESS then dom.ret
      else if o.enq = CaamStatus.NO_ERROR then
        (if ¬o.bin2bn_x_ok then o.bin2bn_x_err
         else if ¬o.bin2bn_y_ok then o.bin2bn_y_err
         else TEE_SUCCESS)
      else job_status_to_tee_result o.jobstatus,
     if dom.ret ≠ TEE_SUCCESS then dom.key
      else if o.enq = CaamStatus.NO_ERROR then
        (if ¬o.bin2bn_x_ok then dom.key
         else if ¬o.bin2bn_y_ok then
           { dom.key with x := bytesBEtoNat (deviceWrite o.dev_x n_bytes) }
         else { dom.key with
            x := bytesBEtoNat (deviceWrite o.dev_x n_bytes),
            y := bytesBEtoNat (deviceWrite o.dev_y l_bytes) })
      else dom.key,
     if dom.ret ≠ TEE_SUCCESS then [] else desc,
     events⟩

/-- `struct drvcrypt_sign_data` for Sign: the private key, security
size, hashed message, and the caller's signature buffer with its
length. -/
structure SignDataSign where
  key : DsaKeypairBN
  size_sec : Nat
  message : List Nat
  signature : List Nat
  signature_len : Nat

/-- Outcomes of the external collaborators during one `do_sign` call. -/
structure SignOracle where
  alloc_desc : Bool
  kconv : ConvOracle
  msg_ok : Bool
  msg_err : Nat
  msg_sgt : Bool
  sc_ok : Bool
  sc_err : Nat
  sc_sgt : Bool
  sd_ok : Bool
  sd_err : Nat
  sd_sgt : Bool
  devsig : List Nat
  enq : CaamStatus
  jobstatus : Nat

/-- Result of `do_sign`: TEE result, the caller's signature buffer and
reported length after the call, the working-buffer length requested
from the output DMA object, the descriptor, and the resource events. -/
structure SignResult where
  ret : Nat
  sig : List Nat
  siglen : Nat
  working_len : Nat
  desc : List Nat
  events : List Ev

def do_sign (sdata : SignDataSign) (l_bytes n_bytes : Nat)
    (caam64 : Bool) (a : Addrs) (o : SignOracle) : SignResult :=
  if ¬o.alloc_desc then
    ⟨TEE_ERROR_OUT_OF_MEMORY, sdata.signature, sdata.signature_len, 0, [], []⟩
  else
    let conv := do_keypriv_conv sdata.key l_bytes n_bytes o.kconv
    if conv.status ≠ CaamStatus.NO_ERROR then
      ⟨TEE_ERROR_OUT_OF_MEMORY, sdata.signature, sdata.signature_len, 0, [],
        [Ev.alloc Res.rdesc] ++ conv.events ++ [Ev.free Res.rdesc] ++
          do_keypair_free conv.outkey⟩
    else if ¬o.msg_ok then
      ⟨o.msg_err, sdata.signature, sdata.signature_len, 0, [],
        [Ev.alloc Res.rdesc] ++ conv.events ++ [Ev.free Res.rdesc] ++
          do_keypair_free conv.outkey⟩
    else
      let sign_len := ROUNDUP sdata.size_sec 16 + sdata.size_sec
      if ¬o.sc_ok then
        ⟨o.sc_err, sdata.signature, sdata.signature_len, 0, [],
          [Ev.alloc Res.rdesc] ++ conv.events ++ [Ev.alloc Res.rmsg] ++
            [Ev.free Res.rdesc] ++ do_keypair_free conv.outkey ++
            [Ev.free Res.rmsg]⟩
      else if ¬o.sd_ok then
        ⟨o.sd_err, sdata.signature, sdata.signature_len, sign_len, [],
          [Ev.alloc Res.rdesc] ++ conv.events ++
            [Ev.alloc Res.rmsg, Ev.alloc Res.rsc] ++
            [Ev.free Res.rdesc] ++ do_keypair_free conv.outkey ++
            [Ev.free Res.rmsg, Ev.free Res.rsc]⟩
      else
        let pdb_sgt_flags :=
          (if o.msg_sgt then PDB_SGT_PKSIGN_MSG else 0) |||
          (if o.sc_sgt then PDB_SGT_PKSIGN_SIGN_C else 0) |||
          (if o.sd_sgt then PDB_SGT_PKSIGN_SIGN_D else 0)
        let desc := dsa_sign_desc caam64 l_bytes n_bytes pdb_sgt_flags
          a.pa_p a.pa_q a.pa_g a.pa_x a.pa_msg a.pa_sc a.pa_sd
          sdata.message.length
        let working := deviceWrite o.devsig sign_len
        let events := [Ev.alloc Res.rdesc] ++ conv.events ++
          [Ev.alloc Res.rmsg, Ev.alloc Res.rsc, Ev.alloc Res.rsd] ++
          [Ev.free Res.rdesc] ++ do_keypair_free conv.outkey ++
          [Ev.free Res.rmsg, Ev.free Res.rsc, Ev.free Res.rsd]
        ⟨if o.enq = CaamStatus.NO_ERROR then TEE_SUCCESS
          else job_status_to_tee_result o.jobstatus,
         if o.enq = CaamStatus.NO_ERROR then
           working.take (2 * sdata.size_sec)
          else sdata.signature,
         if o.enq = CaamStatus.NO_ERROR then 2 * sdata.size_sec
          else sdata.signature_len,
         sign_len, desc, events⟩

/-- `struct drvcrypt_sign_data` for Verify: the public key, security
size, hashed message, and the signature to check. -/
structure SignDataVerify where
  key : DsaPublicKeyBN
  size_sec : Nat
  message : List Nat
  signature : List Nat

/-- Outcomes of the external collaborators during one `do_verify`
call. -/
structure VerifyOracle where
  alloc_desc : Bool
  kconv : ConvOracle
  msg_ok : Bool
  msg_err : Nat
  msg_sgt : Bool
  sc_ok : Bool
  sc_err : Nat
  sc_sgt : Bool
  sd_ok : Bool
  sd_err : Nat
  sd_sgt : Bool
  alloc_tmp : Bool
  enq : CaamStatus
  jobstatus : Nat

/-- Result of `do_verify`: TEE result, descriptor, resource events. -/
structure VerifyResult where
  ret : Nat
  desc : List Nat
  events : List Ev

def do_verify (sdata : SignDataVerify) (l_bytes n_bytes : Nat)
    (caam64 : Bool) (a : Addrs) (o : VerifyOracle) : VerifyResult :=
  if ¬o.alloc_desc then
    ⟨TEE_ERROR_OUT_OF_MEMORY, [], []⟩
  else
    let conv := do_keypub_conv sdata.key l_bytes n_bytes o.kconv
    if conv.status ≠ CaamStatus.NO_ERROR then
      ⟨TEE_ERROR_OUT_OF_MEMORY, [],
        [Ev.alloc Res.rdesc] ++ conv.events ++ [Ev.free Res.rdesc] ++
          do_keypair_free conv.outkey⟩
    else if ¬o.msg_ok then
      ⟨o.msg_err, [],
        [Ev.alloc Res.rdesc] ++ conv.events ++ [Ev.free Res.rdesc] ++
          do_keypair_free conv.outkey⟩
    else if ¬o.sc_ok then
      ⟨o.sc_err, [],
        [Ev.alloc Res.rdesc] ++ conv.events ++ [Ev.alloc Res.rmsg] ++
          [Ev.free Res.rdesc] ++ do_keypair_free conv.outkey ++
          [Ev.free Res.rmsg]⟩
    else if ¬o.sd_ok then
      ⟨o.sd_err, [],
        [Ev.alloc Res.rdesc] ++ conv.events ++
          [Ev.alloc Res.rmsg, Ev.alloc Res.rsc] ++
          [Ev.free Res.rdesc] ++ do_keypair_free conv.outkey ++
          [Ev.free Res.rmsg, Ev.free Res.rsc]⟩
    else if ¬o.alloc_tmp then
      ⟨TEE_ERROR_OUT_OF_MEMORY, [],
        [Ev.alloc Res.rdesc] ++ conv.events ++
          [Ev.alloc Res.rmsg, Ev.alloc Res.rsc, Ev.alloc Res.rsd] ++
          [Ev.free Res.rdesc] ++ do_keypair_free conv.outkey ++
          [Ev.free Res.rmsg, Ev.free Res.rsc, Ev.free Res.rsd]⟩
    else
      let pdb_sgt_flags :=
        (if o.msg_sgt then PDB_SGT_PKVERIF_MSG else 0) |||
        (if o.sc_sgt then PDB_SGT_PKVERIF_SIGN_C else 0) |||
        (if o.sd_sgt then PDB_SGT_PKVERIF_SIGN_D else 0)
      let desc := dsa_verify_desc caam64 l_bytes n_bytes pdb_sgt_flags
        a.pa_p a.pa_q a.pa_g a.pa_y a.pa_msg a.pa_sc a.pa_sd a.pa_tmp
        sdata.message.length
      let events := [Ev.alloc Res.rdesc] ++ conv.events ++
        [Ev.alloc Res.rmsg, Ev.alloc Res.rsc, Ev.alloc Res.rsd,
         Ev.alloc Res.rtmp] ++
        [Ev.free Res.rdesc] ++ do_keypair_free conv.outkey ++
        [Ev.free Res.rtmp] ++
        [Ev.free Res.rmsg, Ev.free Res.rsc, Ev.free Res.rsd]
      ⟨if o.enq = CaamStatus.JOB_STATUS ∧ o.jobstatus = 0 then
          TEE_ERROR_SIGNATURE_INVALID
        else if o.enq ≠ CaamStatus.NO_ERROR then
          job_status_to_tee_result o.jobstatus
        else TEE_SUCCESS,
       desc, events⟩

/-! ## Cleanup discipline -/

/-- All resources an orchestrator can allocate. -/
def allRes : List Res :=
  [Res.rdesc, Res.rg, Res.rp, Res.rq, Res.rx, Res.ry, Res.rmsg, Res.rsc,
   Res.rsd, Res.rtmp]

/-- A trace is balanced when every resource is allocated at most once
and freed exactly as many times as it was allocated. -/
def balancedTrace (tr : List Ev) : Bool :=
  allRes.all fun r =>
    (tr.count (Ev.alloc r) == tr.count (Ev.free r)) &&
    Nat.ble (tr.count (Ev.alloc r)) 1

set_option maxHeartbeats 4000000 in
/-- C7: on every exit path of each orchestrator — success, allocation
failure at any step, or device failure — the single cleanup sequence
frees the descriptor and every buffer allocated by that invocation
exactly once: each resource's allocation events are matched one-to-one
by free events, and none is allocated (hence freed) twice. -/
theorem dsa_cleanup_every_path :
    (∀ key l_bits n_bits caam64 a o,
      balancedTrace (do_gen_keypair key l_bits n_bits caam64 a o).events =
        true) ∧
    (∀ sdata l n caam64 a o,
      balancedTrace (do_sign sdata l n caam64 a o).events = true) ∧
    (∀ sdata l n caam64 a o,
      balancedTrace (do_verify sdata l n caam64 a o).events = true) := by
  refine ⟨?_, ?_, ?_⟩
  · intro key l_bits n_bits caam64 a o
    obtain ⟨ad, ax, ay, ⟨aq, ag, ap, _, _, _, _⟩, _, _, _, _, _, _, _, _⟩ := o
    cases ad
    · rfl
    cases ax
    · rfl
    cases ay
    · rfl
    cases aq
    · rfl
    cases ag
    · rfl
    cases ap
    · rfl
    rfl
  · intro sdata l n caam64 a o
    obtain ⟨ad, ⟨cg, cp, cq, cs⟩, mok, _, _, scok, _, _, sdok, _, _, _, _, _⟩ := o
    cases ad
    · rfl
    cases cg
    · rfl
    cases cp
    · rfl
    cases cq
    · rfl
    cases cs
    · rfl
    cases mok
    · rfl
    cases scok
    · rfl
    cases sdok
    · rfl
    rfl
  · intro sdata l n caam64 a o
    obtain ⟨ad, ⟨cg, cp, cq, cs⟩, mok, _, _, scok, _, _, sdok, _, _, atmp,
      _, _⟩ := o
    cases ad
    · rfl
    cases cg
    · rfl
    cases cp
    · rfl
    cases cq
    · rfl
    cases cs
    · rfl
    cases mok
    · rfl
    cases scok
    · rfl
    cases sdok
    · rfl
    cases atmp
    · rfl
    rfl

/-! ## Verify outcome classification -/

/-- C1: with all resources acquired, when the device executes the job
and reports that the signature does not verify (the transport returns
`CAAM_JOB_STATUS` with a zero hardware status), `do_verify` returns
`TEE_ERROR_SIGNATURE_INVALID` — never a mapped device failure; when the
transport reports any other execution error, `do_verify` returns the
mapped device error, never `TEE_ERROR_SIGNATURE_INVALID`. -/
theorem dsa_verify_outcome_separation (sdata : SignDataVerify) (l n : Nat)
    (caam64 : Bool) (a : Addrs) (o : VerifyOracle)
    (hd : o.alloc_desc = true) (hcg : o.kconv.alloc_g = true)
    (hcp : o.kconv.alloc_p = true) (hcq : o.kconv.alloc_q = true)
    (hcs : o.kconv.alloc_s = true) (hm : o.msg_ok = true)
    (hsc : o.sc_ok = true) (hsd : o.sd_ok = true)
    (ht : o.alloc_tmp = true) :
    ((o.enq = CaamStatus.JOB_STATUS ∧ o.jobstatus = 0) →
      (do_verify sdata l n caam64 a o).ret = TEE_ERROR_SIGNATURE_INVALID) ∧
    ((o.enq ≠ CaamStatus.NO_ERROR ∧
        ¬(o.enq = CaamStatus.JOB_STATUS ∧ o.jobstatus = 0)) →
      (do_verify sdata l n caam64 a o).ret =
        job_status_to_tee_result o.jobstatus ∧
      (do_verify sdata l n caam64 a o).ret ≠
        TEE_ERROR_SIGNATURE_INVALID) := by
  constructor
  · intro h
    simp [do_verify, do_keypub_conv, hd, hcg, hcp, hcq, hcs, hm, hsc, hsd,
      ht, h.1, h.2]
  · intro h
    refine ⟨?_, ?_⟩ <;>
      simp [do_verify, do_keypub_conv, hd, hcg, hcp, hcq, hcs, hm, hsc,
        hsd, ht, h.1, h.2, job_status_to_tee_result, TEE_ERROR_GENERIC,
        TEE_ERROR_SIGNATURE_INVALID]

/-- Witness for C1 at concrete inputs: a `CAAM_JOB_STATUS` completion
with zero hardware status yields signature-invalid; a transport failure
with hardware status 7 yields the mapped generic device error. -/
theorem dsa_verify_outcome_separation_witness :
    (do_verify ⟨⟨1, 1, 1, 1⟩, 1, [], []⟩ 1 1 false ⟨0, 0, 0, 0, 0, 0, 0, 0, 0⟩
      ⟨true, ⟨true, true, true, true⟩, true, 0, false, true, 0, false, true,
       0, false, true, CaamStatus.JOB_STATUS, 0⟩).ret =
      TEE_ERROR_SIGNATURE_INVALID ∧
    (do_verify ⟨⟨1, 1, 1, 1⟩, 1, [], []⟩ 1 1 false ⟨0, 0, 0, 0, 0, 0, 0, 0, 0⟩
      ⟨true, ⟨true, true, true, true⟩, true, 0, false, true, 0, false, true,
       0, false, true, CaamStatus.FAILURE, 7⟩).ret =
      job_status_to_tee_result 7 := by
  constructor
  · exact (dsa_verify_outcome_separation ⟨⟨1, 1, 1, 1⟩, 1, [], []⟩ 1 1 false
      ⟨0, 0, 0, 0, 0, 0, 0, 0, 0⟩
      ⟨true, ⟨true, true, true, true⟩, true, 0, false, true, 0, false, true,
       0, false, true, CaamStatus.JOB_STATUS, 0⟩
      rfl rfl rfl rfl rfl rfl rfl rfl rfl).1 ⟨rfl, rfl⟩
  · exact ((dsa_verify_outcome_separation ⟨⟨1, 1, 1, 1⟩, 1, [], []⟩ 1 1 false
      ⟨0, 0, 0, 0, 0, 0, 0, 0, 0⟩
      ⟨true, ⟨true, true, true, true⟩, true, 0, false, true, 0, false, true,
       0, false, true, CaamStatus.FAILURE, 7⟩
      rfl rfl rfl rfl rfl rfl rfl rfl rfl).2 ⟨by decide, by decide⟩).1

/-! ## Sign buffer sizing -/

/-- C4: with all resources acquired, the working buffer requested from
the output DMA object is exactly `roundup(S, 16) + S` bytes for
`security_size = S` (which is at least `2 × S`), and after a successful
submission the reported signature length is exactly `2 × S`, the
signature being the first `2 × S` bytes of the working buffer. -/
theorem dsa_sign_buffer_sizing (sdata : SignDataSign) (l n : Nat)
    (caam64 : Bool) (a : Addrs) (o : SignOracle)
    (hd : o.alloc_desc = true) (hcg : o.kconv.alloc_g = true)
    (hcp : o.kconv.alloc_p = true) (hcq : o.kconv.alloc_q = true)
    (hcs : o.kconv.alloc_s = true) (hm : o.msg_ok = true)
    (hsc : o.sc_ok = true) (hsd : o.sd_ok = true) :
    (do_sign sdata l n caam64 a o).working_len =
      ROUNDUP sdata.size_sec 16 + sdata.size_sec ∧
    2 * sdata.size_sec ≤ (do_sign sdata l n caam64 a o).working_len ∧
    (o.enq = CaamStatus.NO_ERROR →
      (do_sign sdata l n caam64 a o).siglen = 2 * sdata.size_sec ∧
      (do_sign sdata l n caam64 a o).sig =
        (deviceWrite o.devsig
          (ROUNDUP sdata.size_sec 16 + sdata.size_sec)).take
          (2 * sdata.size_sec)) := by
  have hwl : (do_sign sdata l n caam64 a o).working_len =
      ROUNDUP sdata.size_sec 16 + sdata.size_sec := by
    simp [do_sign, do_keypriv_conv, hd, hcg, hcp, hcq, hcs, hm, hsc, hsd]
  refine ⟨hwl, ?_, ?_⟩
  · rw [hwl]
    have := ROUNDUP_ge sdata.size_sec 16 (by norm_num)
    omega
  · intro he
    constructor <;>
      simp [do_sign, do_keypriv_conv, hd, hcg, hcp, hcq, hcs, hm, hsc,
        hsd, he]

/-- Witness for C4 at concrete inputs: for S = 20 the working buffer is
52 bytes (roundup(20,16) + 20 = 32 + 20), and a successful sign reports
40 = 2 × 20 signature bytes, copied from the start of the working
buffer. -/
theorem dsa_sign_buffer_sizing_witness :
    (do_sign ⟨⟨1, 1, 1, 1, 1⟩, 20, [5], [], 0⟩ 1 1 false
      ⟨0, 0, 0, 0, 0, 0, 0, 0, 0⟩
      ⟨true, ⟨true, true, true, true⟩, true, 0, false, true, 0, false, true,
       0, false, List.replicate 52 9, CaamStatus.NO_ERROR, 0⟩).working_len =
      52 ∧
    (do_sign ⟨⟨1, 1, 1, 1, 1⟩, 20, [5], [], 0⟩ 1 1 false
      ⟨0, 0, 0, 0, 0, 0, 0, 0, 0⟩
      ⟨true, ⟨true, true, true, true⟩, true, 0, false, true, 0, false, true,
       0, false, List.replicate 52 9, CaamStatus.NO_ERROR, 0⟩).siglen =
      40 := by
  have h := dsa_sign_buffer_sizing ⟨⟨1, 1, 1, 1, 1⟩, 20, [5], [], 0⟩ 1 1 false
    ⟨0, 0, 0, 0, 0, 0, 0, 0, 0⟩
    ⟨true, ⟨true, true, true, true⟩, true, 0, false, true, 0, false, true,
     0, false, List.replicate 52 9, CaamStatus.NO_ERROR, 0⟩
    rfl rfl rfl rfl rfl rfl rfl rfl
  refine ⟨?_, ?_⟩
  · rw [h.1]
    decide
  · rw [(h.2.2 rfl).1]
    decide

end CaamDsa


namespace Dcp

open CaamDsa

/-! ## DCP utility functions (`imx_dcp_utils.c`)

`left_shift_buffer` shifts a big-endian byte buffer left by one bit;
`dcp_alloc_memalign` / `dcp_calloc_align_buf` allocate zero-initialized,
cache-line-aligned buffers with a hidden header, guarding each
allocation-size addition with `ADD_OVERFLOW`.  `calloc` and
`virt_to_phys` are external collaborators, driven by an oracle;
`read_cacheline_size` is the oracle's `cacheline` field.  The `ROUNDUP`
macro of the utility headers wraps in `size_t` arithmetic and is
modelled so (`ROUNDUP_sz`): its result, not its unbounded value, is
what the third `ADD_OVERFLOW` guard sees. -/

/-- Left shift of a big-endian byte buffer by one bit, as performed by
the loop of left_shift_buffer: byte j of the result is
((input[j] << 1) & 0xFF) | msb, where msb is bit 7 of input[j+1]
(zero for the least significant byte, i = 0 iteration). -/
def left_shift_buffer (input : List Nat) : List Nat :=
  (List.range input.length).map fun j =>
    input.getD j 0 * 2 % 256 + input.getD (j + 1) 0 / 128 % 2

theorem left_shift_buffer_nil : left_shift_buffer [] = [] := rfl

theorem left_shift_buffer_cons (b : Nat) (rest : List Nat) :
    left_shift_buffer (b :: rest) =
      (b * 2 % 256 + rest.getD 0 0 / 128 % 2) :: left_shift_buffer rest := by
  show (List.range (rest.length + 1)).map _ = _
  rw [List.range_succ_eq_map, List.map_cons, List.map_map]
  congr 1

theorem left_shift_buffer_length (input : List Nat) :
    (left_shift_buffer input).length = input.length := by
  show (List.map _ (List.range input.length)).length = input.length
  rw [List.length_map, List.length_range]

theorem left_shift_carry (rest : List Nat) (h : ∀ b ∈ rest, b < 256) :
    rest.getD 0 0 / 128 % 2 =
      2 * bytesBEtoNat rest / 256 ^ rest.length := by
  cases rest with
  | nil => simp [bytesBEtoNat]
  | cons c tail =>
    have hc : c < 256 := h c (List.mem_cons_self c tail)
    have hvt : bytesBEtoNat tail < 256 ^ tail.length :=
      bytesBEtoNat_lt tail fun x hx => h x (List.mem_cons_of_mem c hx)
    rw [List.getD_cons_zero, bytesBEtoNat_cons, List.length_cons]
    have hP : 0 < 256 ^ tail.length := Nat.pos_pow_of_pos _ (by norm_num)
    have hsplit : 256 ^ (tail.length + 1) = 256 * 256 ^ tail.length := by
      rw [pow_succ]; ring
    have hdivlt : c / 128 < 2 := Nat.div_lt_of_lt_mul (by omega)
    rw [Nat.mod_eq_of_lt hdivlt, hsplit]
    by_cases hbig : c < 128
    · have hle : c * 256 ^ tail.length ≤ 127 * 256 ^ tail.length :=
        Nat.mul_le_mul_right _ (by omega)
      rw [Nat.div_eq_of_lt (by omega), Nat.div_eq_of_lt (by omega)]
    · have h1 : 128 ≤ c := by omega
      have hle : c * 256 ^ tail.length ≤ 255 * 256 ^ tail.length :=
        Nat.mul_le_mul_right _ (by omega)
      have hge : 128 * 256 ^ tail.length ≤ c * 256 ^ tail.length :=
        Nat.mul_le_mul_right _ h1
      have hquot : c / 128 = 1 := by omega
      rw [hquot]
      symm
      apply Nat.div_eq_of_lt_le
      · omega
      · omega

theorem left_shift_value (input : List Nat) (h : ∀ b ∈ input, b < 256) :
    bytesBEtoNat (left_shift_buffer input) =
      2 * bytesBEtoNat input % 256 ^ input.length := by
  induction input with
  | nil => simp [left_shift_buffer_nil, bytesBEtoNat]
  | cons b rest ih =>
    have hrest : ∀ x ∈ rest, x < 256 := fun x hx => h x (List.mem_cons_of_mem b hx)
    have hb : b < 256 := h b (List.mem_cons_self b rest)
    have hv : bytesBEtoNat rest < 256 ^ rest.length := bytesBEtoNat_lt rest hrest
    rw [left_shift_buffer_cons, bytesBEtoNat_cons, left_shift_buffer_length,
      ih hrest, left_shift_carry rest hrest, List.length_cons]
    have hP : 0 < 256 ^ rest.length := Nat.pos_pow_of_pos _ (by norm_num)
    have hsplit : 256 ^ (rest.length + 1) = 256 * 256 ^ rest.length := by
      rw [pow_succ]; ring
    rw [hsplit]
    set P := 256 ^ rest.length with hPdef
    set v := bytesBEtoNat rest with hvdef
    -- LHS: (b*2%256 + 2v/P) * P + 2v%P = (b*2%256)*P + 2v
    have hdm : 2 * v / P * P + 2 * v % P = 2 * v := by
      have := Nat.div_add_mod (2 * v) P
      have hcm : P * (2 * v / P) = 2 * v / P * P := Nat.mul_comm _ _
      omega
    have hA2 : b * 2 % 256 % 2 = 0 := by
      rw [Nat.mod_mod_of_dvd _ (by norm_num : (2:Nat) ∣ 256)]
      omega
    have hA : b * 2 % 256 ≤ 254 := by
      have := Nat.mod_lt (b * 2) (show 0 < 256 by norm_num)
      omega
    set A := b * 2 % 256 with hAdef
    set q := b * 2 / 256 with hqdef
    -- decompose the doubled byte over base 256
    have hbsplit : b * 2 = q * 256 + A := by
      have := Nat.div_add_mod (b * 2) 256
      omega
    have hAP : A * P ≤ 254 * P := Nat.mul_le_mul_right _ hA
    have hlhs : (A + 2 * v / P) * P + 2 * v % P = A * P + 2 * v := by
      rw [Nat.add_mul]
      omega
    rw [hlhs, bytesBEtoNat_cons, ← hPdef, ← hvdef]
    have hrhs : 2 * (b * P + v) = A * P + 2 * v + q * (256 * P) := by
      have h2 : b * 2 * P = (q * 256 + A) * P := by rw [← hbsplit]
      calc 2 * (b * P + v) = b * 2 * P + 2 * v := by ring
        _ = (q * 256 + A) * P + 2 * v := by rw [h2]
        _ = A * P + 2 * v + q * (256 * P) := by ring
    rw [hrhs, Nat.add_mul_mod_self_right]
    symm
    apply Nat.mod_eq_of_lt
    omega

theorem left_shift_lsb (input : List Nat) :
    (left_shift_buffer input).getD (input.length - 1) 0 % 2 = 0 := by
  cases input with
  | nil => rfl
  | cons b rest =>
    have hk : (b :: rest).length - 1 < (b :: rest).length := by simp
    have hget : (left_shift_buffer (b :: rest)).getD ((b :: rest).length - 1) 0 =
        (b :: rest).getD ((b :: rest).length - 1) 0 * 2 % 256 +
        (b :: rest).getD ((b :: rest).length - 1 + 1) 0 / 128 % 2 := by
      show ((List.range (b :: rest).length).map _).getD ((b :: rest).length - 1) 0 = _
      rw [List.getD_eq_getElem?_getD, List.getElem?_map, List.getElem?_range hk]
      rfl
    rw [hget]
    have hlast : (b :: rest).getD ((b :: rest).length - 1 + 1) 0 = 0 :=
      List.getD_eq_default _ _ (by simp)
    rw [hlast]
    have : (b :: rest).getD ((b :: rest).length - 1) 0 * 2 % 256 % 2 = 0 := by
      rw [Nat.mod_mod_of_dvd _ (by norm_num : (2:Nat) ∣ 256)]
      omega
    omega

theorem dcp_left_shift_buffer_correct (input : List Nat)
    (h : ∀ b ∈ input, b < 256) :
    (left_shift_buffer input).length = input.length ∧
    bytesBEtoNat (left_shift_buffer input) =
      2 * bytesBEtoNat input % 256 ^ input.length ∧
    (left_shift_buffer input).getD (input.length - 1) 0 % 2 = 0 :=
  ⟨left_shift_buffer_length input, left_shift_value input h,
   left_shift_lsb input⟩

theorem dcp_left_shift_buffer_correct_witness :
    (left_shift_buffer [128, 1]).length = [128, 1].length ∧
    bytesBEtoNat (left_shift_buffer [128, 1]) =
      2 * bytesBEtoNat [128, 1] % 256 ^ [128, 1].length ∧
    left_shift_buffer [128, 1] = [0, 2] := by
  have h := dcp_left_shift_buffer_correct [128, 1] (by decide)
  exact ⟨h.1, h.2.1, by decide⟩

def MEM_HDR_SIZE : Nat := 16

def SIZE_MAX : Nat := 2 ^ 64 - 1

/-- The util-header `ROUNDUP(v, size)` macro as the DCP allocator
evaluates it: `(v + (size - 1)) & ~(size - 1)` in `size_t` arithmetic.
The addition wraps modulo `2^64`; for the power-of-two sizes the
cache-line register provides, the bit mask equals truncating division,
giving `((v + size - 1) mod 2^64) / size * size`. -/
def ROUNDUP_sz (v size : Nat) : Nat := (v + size - 1) % 2 ^ 64 / size * size

theorem ROUNDUP_sz_mod (v size : Nat) : ROUNDUP_sz v size % size = 0 :=
  Nat.mul_mod_left _ _

theorem ROUNDUP_sz_ge (v size : Nat) (h : 0 < size)
    (hnw : v + size ≤ SIZE_MAX + 1) : v ≤ ROUNDUP_sz v size := by
  show v ≤ (v + size - 1) % 2 ^ 64 / size * size
  have hsm : SIZE_MAX = 2 ^ 64 - 1 := rfl
  have hm : (v + size - 1) % 2 ^ 64 = v + size - 1 :=
    Nat.mod_eq_of_lt (by omega)
  rw [hm]
  have hd := Nat.div_add_mod (v + size - 1) size
  have hmod : (v + size - 1) % size < size := Nat.mod_lt _ h
  have hc2 : size * ((v + size - 1) / size) = (v + size - 1) / size * size :=
    Nat.mul_comm _ _
  omega

theorem ROUNDUP_sz_lt (v size : Nat) (h : 0 < size)
    (hnw : v + size ≤ SIZE_MAX + 1) : ROUNDUP_sz v size < v + size := by
  show (v + size - 1) % 2 ^ 64 / size * size < v + size
  have hsm : SIZE_MAX = 2 ^ 64 - 1 := rfl
  have hm : (v + size - 1) % 2 ^ 64 = v + size - 1 :=
    Nat.mod_eq_of_lt (by omega)
  rw [hm]
  have hd := Nat.div_add_mod (v + size - 1) size
  have hc2 : size * ((v + size - 1) / size) = (v + size - 1) / size * size :=
    Nat.mul_comm _ _
  omega

/-- One `ADD_OVERFLOW(a, b, ...)` check: true when the sum exceeds the
`size_t` range. -/
def add_overflows (a b : Nat) : Bool := SIZE_MAX < a + b

structure DcpAllocOracle where
  cacheline : Nat
  calloc : Nat → Option Nat
  v2p : Nat → Nat

structure MemAlign where
  addr : Nat
  base : Nat
  alloc_size : Nat
deriving DecidableEq, Repr

def dcp_alloc_memalign (size : Nat) (o : DcpAllocOracle) : Option MemAlign :=
  if add_overflows size MEM_HDR_SIZE then none
  else
    let a1 := size + MEM_HDR_SIZE
    if size = o.cacheline ∧ add_overflows a1 o.cacheline then none
    else
      let a2 := if size = o.cacheline then a1 + o.cacheline else a1
      if add_overflows o.cacheline (ROUNDUP_sz a2 o.cacheline) then none
      else
        let alloc_size := o.cacheline + ROUNDUP_sz a2 o.cacheline
        match o.calloc alloc_size with
        | none => none
        | some ptr =>
          some ⟨ROUNDUP_sz (ptr + MEM_HDR_SIZE) o.cacheline, ptr, alloc_size⟩

structure AlignBuf where
  data : Nat
  paddr : Nat
  size : Nat
deriving DecidableEq, Repr

def dcp_calloc_align_buf (bufNull : Bool) (size : Nat)
    (o : DcpAllocOracle) : Nat × Option AlignBuf :=
  if bufNull then (TEE_ERROR_BAD_PARAMETERS, none)
  else
    match dcp_alloc_memalign size o with
    | none => (TEE_ERROR_OUT_OF_MEMORY, none)
    | some m =>
      if o.v2p m.addr = 0 then (TEE_ERROR_OUT_OF_MEMORY, none)
      else (TEE_SUCCESS, some ⟨m.addr, o.v2p m.addr, size⟩)

theorem dcp_alloc_memalign_spec (size : Nat) (o : DcpAllocOracle)
    (hc : 0 < o.cacheline) (m : MemAlign)
    (h : dcp_alloc_memalign size o = some m) :
    m.addr % o.cacheline = 0 ∧
    m.alloc_size ≤ SIZE_MAX ∧
    (size + MEM_HDR_SIZE + 2 * o.cacheline ≤ SIZE_MAX + 1 →
      size + MEM_HDR_SIZE ≤ m.alloc_size) ∧
    (size + MEM_HDR_SIZE + 2 * o.cacheline ≤ SIZE_MAX + 1 →
      m.base + MEM_HDR_SIZE + o.cacheline ≤ SIZE_MAX + 1 →
      m.base + MEM_HDR_SIZE ≤ m.addr ∧
      m.addr + size ≤ m.base + m.alloc_size) := by
  simp only [dcp_alloc_memalign] at h
  by_cases h1 : add_overflows size MEM_HDR_SIZE
  · rw [if_pos h1] at h
    exact absurd h (by simp)
  rw [if_neg h1] at h
  by_cases h2 : size = o.cacheline ∧
      add_overflows (size + MEM_HDR_SIZE) o.cacheline
  · rw [if_pos h2] at h
    exact absurd h (by simp)
  rw [if_neg h2] at h
  set a2 := if size = o.cacheline then size + MEM_HDR_SIZE + o.cacheline
    else size + MEM_HDR_SIZE with ha2
  have ha2ge : size + MEM_HDR_SIZE ≤ a2 := by
    rw [ha2]
    split <;> omega
  have ha2le : a2 ≤ size + MEM_HDR_SIZE + o.cacheline := by
    rw [ha2]
    split <;> omega
  by_cases h3 : add_overflows o.cacheline (ROUNDUP_sz a2 o.cacheline)
  · rw [if_pos h3] at h
    exact absurd h (by simp)
  rw [if_neg h3] at h
  cases hcal : o.calloc (o.cacheline + ROUNDUP_sz a2 o.cacheline) with
  | none =>
    rw [hcal] at h
    exact absurd h (by simp)
  | some ptr =>
    rw [hcal] at h
    have hm : (⟨ROUNDUP_sz (ptr + MEM_HDR_SIZE) o.cacheline, ptr,
        o.cacheline + ROUNDUP_sz a2 o.cacheline⟩ : MemAlign) = m :=
      Option.some.inj h
    subst hm
    have hof : ¬SIZE_MAX < o.cacheline + ROUNDUP_sz a2 o.cacheline := by
      simpa [add_overflows] using h3
    have halloc : o.cacheline + ROUNDUP_sz a2 o.cacheline ≤ SIZE_MAX := by
      omega
    refine ⟨ROUNDUP_sz_mod _ _, halloc, ?_, ?_⟩
    · intro hnw
      have hge2 : a2 ≤ ROUNDUP_sz a2 o.cacheline :=
        ROUNDUP_sz_ge _ _ hc (by omega)
      show size + MEM_HDR_SIZE ≤ o.cacheline + ROUNDUP_sz a2 o.cacheline
      omega
    · intro hnw hptr
      have hptr2 : ptr + MEM_HDR_SIZE + o.cacheline ≤ SIZE_MAX + 1 := hptr
      have hge2 : a2 ≤ ROUNDUP_sz a2 o.cacheline :=
        ROUNDUP_sz_ge _ _ hc (by omega)
      have hge1 : ptr + MEM_HDR_SIZE ≤
          ROUNDUP_sz (ptr + MEM_HDR_SIZE) o.cacheline :=
        ROUNDUP_sz_ge _ _ hc (by omega)
      have hlt1 : ROUNDUP_sz (ptr + MEM_HDR_SIZE) o.cacheline <
          ptr + MEM_HDR_SIZE + o.cacheline :=
        ROUNDUP_sz_lt _ _ hc (by omega)
      refine ⟨hge1, ?_⟩
      show ROUNDUP_sz (ptr + MEM_HDR_SIZE) o.cacheline + size ≤
        ptr + (o.cacheline + ROUNDUP_sz a2 o.cacheline)
      omega

/-- C10 (amended): `dcp_calloc_align_buf` returns
`TEE_ERROR_BAD_PARAMETERS` exactly for a null output struct, and
otherwise either `TEE_ERROR_OUT_OF_MEMORY` or `TEE_SUCCESS` with the
recorded size equal to the request and a cache-line-aligned buffer
backed by an allocation of at most `SIZE_MAX` bytes; when the
allocation-size computation does not wrap inside the unguarded
`ROUNDUP` (request + header + cache-line padding within `size_t`, and
likewise the aligned base address), a successful buffer lies fully
within the zeroed allocation, which is at least request + header bytes;
and an overflow of the first guarded sum (request + header) always
fails the call. -/
theorem dcp_calloc_align_buf_spec (bufNull : Bool) (size : Nat)
    (o : DcpAllocOracle) (hc : 0 < o.cacheline) :
    (bufNull = true →
      (dcp_calloc_align_buf bufNull size o).1 = TEE_ERROR_BAD_PARAMETERS) ∧
    (bufNull = false →
      ((dcp_calloc_align_buf bufNull size o).1 = TEE_SUCCESS ∧
        (∃ m, dcp_alloc_memalign size o = some m ∧
          (dcp_calloc_align_buf bufNull size o).2 =
            some ⟨m.addr, o.v2p m.addr, size⟩ ∧
          m.addr % o.cacheline = 0 ∧
          m.alloc_size ≤ SIZE_MAX ∧
          (size + MEM_HDR_SIZE + 2 * o.cacheline ≤ SIZE_MAX + 1 →
            size + MEM_HDR_SIZE ≤ m.alloc_size) ∧
          (size + MEM_HDR_SIZE + 2 * o.cacheline ≤ SIZE_MAX + 1 →
            m.base + MEM_HDR_SIZE + o.cacheline ≤ SIZE_MAX + 1 →
            m.base + MEM_HDR_SIZE ≤ m.addr ∧
            m.addr + size ≤ m.base + m.alloc_size))) ∨
       ((dcp_calloc_align_buf bufNull size o).1 = TEE_ERROR_OUT_OF_MEMORY ∧
        (dcp_calloc_align_buf bufNull size o).2 = none)) ∧
    (SIZE_MAX < size + MEM_HDR_SIZE →
      (dcp_calloc_align_buf bufNull size o).1 ≠ TEE_SUCCESS) := by
  refine ⟨?_, ?_, ?_⟩
  · intro h
    simp [dcp_calloc_align_buf, h]
  · intro h
    cases hm : dcp_alloc_memalign size o with
    | none =>
      right
      simp [dcp_calloc_align_buf, h, hm]
    | some m =>
      by_cases hv : o.v2p m.addr = 0
      · right
        simp [dcp_calloc_align_buf, h, hm, hv]
      · left
        have hs := dcp_alloc_memalign_spec size o hc m hm
        refine ⟨by simp [dcp_calloc_align_buf, h, hm, hv], m, rfl,
          by simp [dcp_calloc_align_buf, h, hm, hv], hs.1, hs.2.1,
          hs.2.2.1, hs.2.2.2⟩
  · intro hov
    cases bufNull with
    | true =>
      simp [dcp_calloc_align_buf, TEE_ERROR_BAD_PARAMETERS, TEE_SUCCESS]
    | false =>
      have hm : dcp_alloc_memalign size o = none := by
        simp [dcp_alloc_memalign, add_overflows, hov]
      simp [dcp_calloc_align_buf, hm, TEE_ERROR_OUT_OF_MEMORY, TEE_SUCCESS]

/-- C10 counterexample: at a request of `SIZE_MAX - 16` bytes with a
64-byte cache line, the allocation-size computation
(request + header + cache-line padding) overflows, yet the wrapping
`ROUNDUP` reduces the guarded operand to zero, every `ADD_OVERFLOW`
check passes, and the call returns `TEE_SUCCESS` recording the full
request size over a 64-byte allocation — so an overflowing size
computation does not always fail. -/
theorem dcp_calloc_align_buf_overflow_counterexample :
    SIZE_MAX < (SIZE_MAX - MEM_HDR_SIZE) + MEM_HDR_SIZE + 64 ∧
    (dcp_calloc_align_buf false (SIZE_MAX - MEM_HDR_SIZE)
      ⟨64, fun _ => some 4096, fun a => a⟩).1 = TEE_SUCCESS ∧
    (dcp_calloc_align_buf false (SIZE_MAX - MEM_HDR_SIZE)
      ⟨64, fun _ => some 4096, fun a => a⟩).2 =
      some ⟨4160, 4160, SIZE_MAX - MEM_HDR_SIZE⟩ ∧
    dcp_alloc_memalign (SIZE_MAX - MEM_HDR_SIZE)
      ⟨64, fun _ => some 4096, fun a => a⟩ = some ⟨4160, 4096, 64⟩ ∧
    64 < SIZE_MAX - MEM_HDR_SIZE := by
  refine ⟨by decide, ?_, ?_, by decide, by decide⟩ <;> decide

/-- Witness for C10 at concrete inputs: a null output struct is
rejected, and a 32-byte request with a 64-byte cache line succeeds with
an aligned buffer recording exactly 32 bytes. -/
theorem dcp_calloc_align_buf_spec_witness :
    (dcp_calloc_align_buf true 32 ⟨64, fun _ => some 4096, fun a => a⟩).1 =
      TEE_ERROR_BAD_PARAMETERS ∧
    (dcp_calloc_align_buf false 32 ⟨64, fun _ => some 4096, fun a => a⟩).1 =
      TEE_SUCCESS ∧
    (dcp_calloc_align_buf false 32 ⟨64, fun _ => some 4096, fun a => a⟩).2 =
      some ⟨4160, 4160, 32⟩ := by
  have h1 := dcp_calloc_align_buf_spec true 32
    ⟨64, fun _ => some 4096, fun a => a⟩ (by decide)
  have h2 := dcp_calloc_align_buf_spec false 32
    ⟨64, fun _ => some 4096, fun a => a⟩ (by decide)
  have hconc : dcp_alloc_memalign 32 ⟨64, fun _ => some 4096, fun a => a⟩ =
      some ⟨4160, 4096, 128⟩ := by decide
  refine ⟨h1.1 rfl, ?_, ?_⟩ <;>
    rcases h2.2.1 rfl with ⟨hret, m, hm, hbuf, -⟩ | ⟨hret, -⟩
  · exact hret
  · exact absurd hret (by decide)
  · have hmv : m = ⟨4160, 4096, 128⟩ :=
      Option.some.inj (hm.symm.trans hconc)
    subst hmv
    exact hbuf
  · exact absurd hret (by decide)

end Dcp
